import Mathlib

/-
Verification of the chunk-streaming and follow-camera core of the COV demo
(main.js). The streaming state machine is embedded over rational world
coordinates (JavaScript floats divide exactly by the power-of-two chunk size);
tile object identity is modelled by a monotone id counter: each call to
buildCityChunk allocates a fresh id. A separate embedding over an extended
number type with NaN and signed infinities captures the IEEE special values
where they matter.
-/

namespace COV

/-! ## Tile streamer: configuration and state (main.js lines 1326-1331) -/

/-- CHUNK_SIZE = 32 (main.js line 1328). -/
def CHUNK_SIZE : ℚ := 32

/-- CHUNK_RADIUS = 1 (main.js line 1329): a 3x3 grid around the player. -/
def CHUNK_RADIUS : ℤ := 1

/-- The mutable module state of the tile streamer: `loadedChunks` is the
insertion-ordered Map from chunk key to the built chunk (modelled by the id the
chunk received from the allocation counter `nextId`); `lastChunkX`, `lastChunkZ`
are the memoized avatar chunk, `none` standing for the JavaScript `null`. -/
structure StreamState where
  loadedChunks : List ((ℤ × ℤ) × ℕ)
  lastChunkX : Option ℤ
  lastChunkZ : Option ℤ
  nextId : ℕ
deriving DecidableEq, Repr

/-- Initial module state: `new Map()`, `lastChunkX = null`, `lastChunkZ = null`
(main.js lines 1330-1331). -/
def initialStreamState : StreamState := ⟨[], none, none, 0⟩

/-- worldToChunk (main.js lines 2961-2965): floor division of the world
position by CHUNK_SIZE. -/
def worldToChunk (x z : ℚ) : ℤ × ℤ := (⌊x / CHUNK_SIZE⌋, ⌊z / CHUNK_SIZE⌋)

/-- Integer for-loop range: the values taken by `for (let v = lo; v <= hi; v++)`. -/
def intRange (lo hi : ℤ) : List ℤ :=
  (List.range (hi + 1 - lo).toNat).map (fun i : ℕ => lo + (i : ℤ))

/-- The needed set of updateCityStreaming (main.js lines 2978-2981), in the
exact order the nested for-loops enumerate it: x outer, z inner. -/
def neededList (cx cz : ℤ) : List (ℤ × ℤ) :=
  (intRange (cx - CHUNK_RADIUS) (cx + CHUNK_RADIUS)).flatMap (fun x =>
    (intRange (cz - CHUNK_RADIUS) (cz + CHUNK_RADIUS)).map (fun z => (x, z)))

/-- The keys currently present in the loadedChunks table. -/
def chunkKeys (s : StreamState) : List (ℤ × ℤ) := s.loadedChunks.map Prod.fst

/-- Body of the creation loop (main.js lines 2982-2986): if the key is absent,
build a chunk (allocate a fresh id) and insert it; `Map.set` on a fresh key
appends in insertion order. -/
def loadStep (acc : StreamState) (k : ℤ × ℤ) : StreamState :=
  if k ∈ chunkKeys acc then acc
  else { acc with loadedChunks := acc.loadedChunks ++ [(k, acc.nextId)],
                  nextId := acc.nextId + 1 }

/-- The creation loop of updateCityStreaming over the needed keys in loop order. -/
def loadPhase (s : StreamState) (ks : List (ℤ × ℤ)) : StreamState :=
  ks.foldl loadStep s

/-- The eviction loop (main.js lines 2991-3006): every entry whose key is not
in the needed set is disposed and deleted; deleting while iterating a key
snapshot keeps the remaining entries in order, i.e. it filters the table. -/
def evictPhase (s : StreamState) (needed : List (ℤ × ℤ)) : StreamState :=
  { s with loadedChunks := s.loadedChunks.filter (fun e => decide (e.1 ∈ needed)) }

/-- Avatar position used by the streamer (main.js line 2969):
`character ? character.position : new THREE.Vector3(0, 0, 0)`; only the x and z
components are read. -/
def streamPos (characterPos : Option (ℚ × ℚ)) : ℚ × ℚ := characterPos.getD (0, 0)

/-- The avatar chunk of a frame (main.js line 2970):
`const { cx, cz } = worldToChunk(pos.x, pos.z)`. -/
def avatarChunk (characterPos : Option (ℚ × ℚ)) : ℤ × ℤ :=
  worldToChunk (streamPos characterPos).1 (streamPos characterPos).2

/-- updateCityStreaming (main.js lines 2968-3007): compute the avatar chunk,
early-exit when it matches the memo and the table is non-empty, otherwise
update the memo, create every missing needed chunk, then evict every chunk
outside the needed set. -/
def updateCityStreaming (characterPos : Option (ℚ × ℚ)) (s : StreamState) :
    StreamState :=
  if s.lastChunkX = some (avatarChunk characterPos).1 ∧
      s.lastChunkZ = some (avatarChunk characterPos).2 ∧
      0 < s.loadedChunks.length
  then s
  else
    evictPhase
      (loadPhase
        { s with lastChunkX := some (avatarChunk characterPos).1,
                 lastChunkZ := some (avatarChunk characterPos).2 }
        (neededList (avatarChunk characterPos).1 (avatarChunk characterPos).2))
      (neededList (avatarChunk characterPos).1 (avatarChunk characterPos).2)

/-- The initial-population loop of createCityEnvironment (main.js lines
1808-1825): the table is cleared, the memo reset to null, and the fixed 3x3
block around the origin is built. The id counter keeps growing: the rebuilt
chunks are fresh objects. -/
def createCityReset (s : StreamState) : StreamState :=
  loadPhase ⟨[], none, none, s.nextId⟩
    ((intRange (-1) 1).flatMap (fun x => (intRange (-1) 1).map (fun z => (x, z))))

/-- States of the streamer reachable in the program: the initial module state,
a createCityEnvironment reset, or any updateCityStreaming frame on a reachable
state. -/
inductive Reachable : StreamState → Prop where
  | init : Reachable initialStreamState
  | create : ∀ {s}, Reachable s → Reachable (createCityReset s)
  | step : ∀ {s} (p : Option (ℚ × ℚ)), Reachable s → Reachable (updateCityStreaming p s)

/-! ## Basic membership lemmas -/

theorem mem_intRange {lo hi a : ℤ} : a ∈ intRange lo hi ↔ lo ≤ a ∧ a ≤ hi := by
  simp only [intRange, List.mem_map, List.mem_range]
  constructor
  · rintro ⟨i, h1, rfl⟩
    omega
  · rintro ⟨h1, h2⟩
    exact ⟨(a - lo).toNat, by omega, by omega⟩

theorem mem_neededList {cx cz : ℤ} {k : ℤ × ℤ} :
    k ∈ neededList cx cz ↔ |k.1 - cx| ≤ CHUNK_RADIUS ∧ |k.2 - cz| ≤ CHUNK_RADIUS := by
  obtain ⟨x, z⟩ := k
  simp only [neededList, List.mem_flatMap, List.mem_map, mem_intRange,
    Prod.mk.injEq, abs_le, CHUNK_RADIUS]
  constructor
  · rintro ⟨x0, hx, z0, hz, rfl, rfl⟩
    omega
  · rintro ⟨h1, h2⟩
    exact ⟨x, by omega, z, by omega, rfl, rfl⟩

theorem mem_chunkKeys_loadStep {s : StreamState} {k k2 : ℤ × ℤ} :
    k2 ∈ chunkKeys (loadStep s k) ↔ k2 ∈ chunkKeys s ∨ k2 = k := by
  rw [loadStep]
  split
  · next h =>
    constructor
    · exact Or.inl
    · rintro (h2 | rfl)
      · exact h2
      · exact h
  · next h =>
    simp [chunkKeys]

theorem lastChunkX_loadStep {s : StreamState} {k : ℤ × ℤ} :
    (loadStep s k).lastChunkX = s.lastChunkX := by
  by_cases h : k ∈ chunkKeys s <;> simp [loadStep, h]

theorem lastChunkZ_loadStep {s : StreamState} {k : ℤ × ℤ} :
    (loadStep s k).lastChunkZ = s.lastChunkZ := by
  by_cases h : k ∈ chunkKeys s <;> simp [loadStep, h]

theorem mem_chunkKeys_loadPhase {ks : List (ℤ × ℤ)} {s : StreamState} {k2 : ℤ × ℤ} :
    k2 ∈ chunkKeys (loadPhase s ks) ↔ k2 ∈ chunkKeys s ∨ k2 ∈ ks := by
  induction ks generalizing s with
  | nil => simp [loadPhase]
  | cons k ks ih =>
    show k2 ∈ chunkKeys (loadPhase (loadStep s k) ks) ↔ _
    rw [ih, mem_chunkKeys_loadStep]
    simp only [List.mem_cons]
    tauto

theorem lastChunkX_loadPhase {ks : List (ℤ × ℤ)} {s : StreamState} :
    (loadPhase s ks).lastChunkX = s.lastChunkX := by
  induction ks generalizing s with
  | nil => rfl
  | cons k ks ih =>
    show (loadPhase (loadStep s k) ks).lastChunkX = _
    rw [ih, lastChunkX_loadStep]

theorem lastChunkZ_loadPhase {ks : List (ℤ × ℤ)} {s : StreamState} :
    (loadPhase s ks).lastChunkZ = s.lastChunkZ := by
  induction ks generalizing s with
  | nil => rfl
  | cons k ks ih =>
    show (loadPhase (loadStep s k) ks).lastChunkZ = _
    rw [ih, lastChunkZ_loadStep]

theorem mem_chunkKeys_evictPhase {s : StreamState} {needed : List (ℤ × ℤ)} {k : ℤ × ℤ} :
    k ∈ chunkKeys (evictPhase s needed) ↔ k ∈ chunkKeys s ∧ k ∈ needed := by
  simp only [evictPhase, chunkKeys, List.mem_map, List.mem_filter,
    decide_eq_true_eq]
  constructor
  · rintro ⟨e, ⟨he, hn⟩, rfl⟩
    exact ⟨⟨e, he, rfl⟩, hn⟩
  · rintro ⟨⟨e, he, rfl⟩, hn⟩
    exact ⟨e, ⟨he, hn⟩, rfl⟩

/-- After a non-memoized reconcile pass, the table keys are exactly the needed
keys. -/
theorem mem_chunkKeys_full_pass {s : StreamState} {n : List (ℤ × ℤ)} {k : ℤ × ℤ} :
    k ∈ chunkKeys (evictPhase (loadPhase s n) n) ↔ k ∈ n := by
  rw [mem_chunkKeys_evictPhase, mem_chunkKeys_loadPhase]
  tauto

/-! ## The streaming invariant -/

/-- Whenever the chunk memo is set, the table keys are exactly the needed set
of the memoized chunk. -/
def StreamInv (s : StreamState) : Prop :=
  ∀ a b : ℤ, s.lastChunkX = some a → s.lastChunkZ = some b →
    ∀ k : ℤ × ℤ, k ∈ chunkKeys s ↔ k ∈ neededList a b

theorem streamInv_initial : StreamInv initialStreamState := by
  intro a b ha _
  cases ha

theorem streamInv_create (s : StreamState) : StreamInv (createCityReset s) := by
  intro a b ha _
  rw [createCityReset, lastChunkX_loadPhase] at ha
  cases ha

theorem streamInv_update (s : StreamState) (hinv : StreamInv s)
    (p : Option (ℚ × ℚ)) : StreamInv (updateCityStreaming p s) := by
  rw [updateCityStreaming]
  split
  · exact hinv
  · intro a b ha hb k
    rw [evictPhase] at ha hb
    simp only [lastChunkX_loadPhase, lastChunkZ_loadPhase] at ha hb
    cases ha
    cases hb
    exact mem_chunkKeys_full_pass

theorem streamInv_of_reachable {s : StreamState} (hs : Reachable s) : StreamInv s := by
  induction hs with
  | init => exact streamInv_initial
  | create _ _ => exact streamInv_create _
  | step p _ ih => exact streamInv_update _ ih p

/-- Core characterization: on any state satisfying the invariant, a reconcile
call leaves the table keys exactly equal to the needed set of the avatar chunk. -/
theorem mem_chunkKeys_update (s : StreamState) (hinv : StreamInv s)
    (p : Option (ℚ × ℚ)) (k : ℤ × ℤ) :
    k ∈ chunkKeys (updateCityStreaming p s) ↔
      k ∈ neededList (avatarChunk p).1 (avatarChunk p).2 := by
  rw [updateCityStreaming]
  split
  · next h =>
    exact hinv _ _ h.1 h.2.1 k
  · exact mem_chunkKeys_full_pass

theorem lastChunkX_update (p : Option (ℚ × ℚ)) (s : StreamState) :
    (updateCityStreaming p s).lastChunkX = some (avatarChunk p).1 := by
  rw [updateCityStreaming]
  split
  · next h => exact h.1
  · simp [evictPhase, lastChunkX_loadPhase]

theorem lastChunkZ_update (p : Option (ℚ × ℚ)) (s : StreamState) :
    (updateCityStreaming p s).lastChunkZ = some (avatarChunk p).2 := by
  rw [updateCityStreaming]
  split
  · next h => exact h.2.1
  · simp [evictPhase, lastChunkZ_loadPhase]

theorem length_full_pass_pos {s : StreamState} {n : List (ℤ × ℤ)} {c : ℤ × ℤ}
    (hc : c ∈ n) : 0 < (evictPhase (loadPhase s n) n).loadedChunks.length := by
  have hmem : c ∈ chunkKeys (evictPhase (loadPhase s n) n) :=
    mem_chunkKeys_full_pass.mpr hc
  cases hl : (evictPhase (loadPhase s n) n).loadedChunks with
  | nil =>
    rw [chunkKeys, hl] at hmem
    simp at hmem
  | cons a l => simp

theorem length_update_pos (p : Option (ℚ × ℚ)) (s : StreamState) :
    0 < (updateCityStreaming p s).loadedChunks.length := by
  rw [updateCityStreaming]
  split
  · next h => exact h.2.2
  · exact length_full_pass_pos (c := avatarChunk p)
      (mem_neededList.mpr (by simp [CHUNK_RADIUS]))

/-- Unfolding helper: a reconcile call with a precomputed avatar chunk. -/
theorem updateCityStreaming_of_chunk (p : Option (ℚ × ℚ)) (s : StreamState)
    (c : ℤ × ℤ) (h : avatarChunk p = c) :
    updateCityStreaming p s =
      if s.lastChunkX = some c.1 ∧ s.lastChunkZ = some c.2 ∧
          0 < s.loadedChunks.length
      then s
      else
        evictPhase
          (loadPhase { s with lastChunkX := some c.1, lastChunkZ := some c.2 }
            (neededList c.1 c.2))
          (neededList c.1 c.2) := by
  subst h
  rfl

/-! ## Streaming claims -/

/-- C1: for every avatar position P, after a call to reconcile(P)
(updateCityStreaming) on any reachable streamer state, the materialized-tile
table key set equals exactly the needed square around the avatar chunk
(cx, cz) = (floor(P.x / tileSize), floor(P.z / tileSize)): no stale entries
outside the square and no missing entries inside it. -/
theorem reconcile_keySet_eq_needed (s : StreamState) (hs : Reachable s)
    (P : ℚ × ℚ) (x z : ℤ) :
    (x, z) ∈ chunkKeys (updateCityStreaming (some P) s) ↔
      |x - ⌊P.1 / CHUNK_SIZE⌋| ≤ CHUNK_RADIUS ∧
      |z - ⌊P.2 / CHUNK_SIZE⌋| ≤ CHUNK_RADIUS := by
  rw [mem_chunkKeys_update s (streamInv_of_reachable hs) (some P) (x, z),
    mem_neededList]
  exact Iff.rfl

theorem reconcile_keySet_eq_needed_witness :
    Reachable initialStreamState ∧
      ((0, 0) ∈ chunkKeys (updateCityStreaming (some (3, 5)) initialStreamState) ↔
        |(0 : ℤ) - ⌊(3 : ℚ) / CHUNK_SIZE⌋| ≤ CHUNK_RADIUS ∧
        |(0 : ℤ) - ⌊(5 : ℚ) / CHUNK_SIZE⌋| ≤ CHUNK_RADIUS) :=
  ⟨Reachable.init,
    reconcile_keySet_eq_needed initialStreamState Reachable.init (3, 5) 0 0⟩

/-- C2: with tileSize 32 and radius 1, from the empty table with the avatar at
the origin, reconcile materializes exactly the nine chunks (-1,-1)..(1,1) with
ids 0..8; moving the avatar to world position (40, 0) gives center chunk (1, 0)
and the table becomes exactly (0,-1)..(2,1): the three entries (-1,-1), (-1,0),
(-1,1) are evicted, the three entries (2,-1), (2,0), (2,1) are freshly created
(new ids 9, 10, 11, all at least the previous allocation counter 9), and the
remaining six entries keep their ids 3..8, i.e. they are the same tile objects,
not rebuilt. -/
theorem streaming_scenario_32 :
    worldToChunk 40 0 = (1, 0) ∧
    updateCityStreaming (some (0, 0)) initialStreamState =
      ⟨[((-1, -1), 0), ((-1, 0), 1), ((-1, 1), 2), ((0, -1), 3), ((0, 0), 4),
        ((0, 1), 5), ((1, -1), 6), ((1, 0), 7), ((1, 1), 8)],
        some 0, some 0, 9⟩ ∧
    updateCityStreaming (some (40, 0))
        (updateCityStreaming (some (0, 0)) initialStreamState) =
      ⟨[((0, -1), 3), ((0, 0), 4), ((0, 1), 5), ((1, -1), 6), ((1, 0), 7),
        ((1, 1), 8), ((2, -1), 9), ((2, 0), 10), ((2, 1), 11)],
        some 1, some 0, 12⟩ := by
  have hc0 : avatarChunk (some (0, 0)) = (0, 0) := by
    norm_num [avatarChunk, streamPos, worldToChunk, CHUNK_SIZE, Prod.ext_iff]
  have hc1 : avatarChunk (some (40, 0)) = (1, 0) := by
    norm_num [avatarChunk, streamPos, worldToChunk, CHUNK_SIZE, Prod.ext_iff]
  refine ⟨?_, ?_, ?_⟩
  · norm_num [worldToChunk, CHUNK_SIZE, Prod.ext_iff]
  · rw [updateCityStreaming_of_chunk _ _ _ hc0]
    decide
  · rw [updateCityStreaming_of_chunk _ _ (0, 0) hc0,
      updateCityStreaming_of_chunk _ _ (1, 0) hc1]
    decide

/-- C3: reconcile is idempotent per position: a second reconcile call with the
same avatar position returns the state unchanged, hence performs zero chunk
creations (the allocation counter is unchanged) and zero evictions (the table
is unchanged). -/
theorem reconcile_idempotent (p : Option (ℚ × ℚ)) (s : StreamState) :
    updateCityStreaming p (updateCityStreaming p s) = updateCityStreaming p s := by
  conv_lhs => rw [updateCityStreaming]
  rw [if_pos ⟨lastChunkX_update p s, lastChunkZ_update p s, length_update_pos p s⟩]

/-- C10: when no character exists, reconcile reads position (0, 0, 0): it is
literally the same computation as reconciling at the origin, and on any
reachable state the resulting table keys form the needed square centered on
chunk (0, 0). -/
theorem reconcile_without_character (s : StreamState) (hs : Reachable s) :
    updateCityStreaming none s = updateCityStreaming (some (0, 0)) s ∧
    ∀ x z : ℤ, ((x, z) ∈ chunkKeys (updateCityStreaming none s) ↔
      |x| ≤ CHUNK_RADIUS ∧ |z| ≤ CHUNK_RADIUS) := by
  constructor
  · rfl
  · intro x z
    rw [mem_chunkKeys_update s (streamInv_of_reachable hs) none (x, z),
      mem_neededList]
    norm_num [avatarChunk, streamPos, worldToChunk, CHUNK_SIZE]

theorem reconcile_without_character_witness :
    Reachable initialStreamState ∧
      (updateCityStreaming none initialStreamState =
          updateCityStreaming (some (0, 0)) initialStreamState ∧
        ∀ x z : ℤ, ((x, z) ∈ chunkKeys (updateCityStreaming none initialStreamState) ↔
          |x| ≤ CHUNK_RADIUS ∧ |z| ≤ CHUNK_RADIUS)) :=
  ⟨Reachable.init, reconcile_without_character initialStreamState Reachable.init⟩

/-! ## Follow-camera controller: pointer-lock mouse look (main.js lines 1346-1363, 1586-1650) -/

noncomputable section

/-- POINTER_SENSITIVITY = 0.0018 (main.js line 1347). -/
def POINTER_SENSITIVITY : ℝ := 0.0018

/-- DEFAULT_CAMERA_FOLLOW_HEIGHT = 4.25 (main.js line 1336). -/
def DEFAULT_CAMERA_FOLLOW_HEIGHT : ℝ := 4.25

/-- DEFAULT_CAMERA_FOLLOW_DISTANCE = 8.14 (main.js line 1337). -/
def DEFAULT_CAMERA_FOLLOW_DISTANCE : ℝ := 8.14

/-- cameraFollowHeight always holds the default (main.js lines 1341-1342). -/
def cameraFollowHeight : ℝ := DEFAULT_CAMERA_FOLLOW_HEIGHT

/-- cameraFollowDistance always holds the default (main.js line 1343). -/
def cameraFollowDistance : ℝ := DEFAULT_CAMERA_FOLLOW_DISTANCE

/-- A degree interval with the field names of the source object literal. -/
structure DegRange where
  min : ℝ
  max : ℝ

/-- CAMERA_PITCH_RANGE_DEG = \x7b min: -30, max: 60 \x7d (main.js line 1358). -/
def CAMERA_PITCH_RANGE_DEG : DegRange := ⟨-30, 60⟩

/-- MIN_CAMERA_ABOVE_CHARACTER = 0.6 (main.js line 1360). -/
def MIN_CAMERA_ABOVE_CHARACTER : ℝ := 0.6

/-- DEFAULT_CAMERA_PITCH_DEG = 23 (main.js line 1361). -/
def DEFAULT_CAMERA_PITCH_DEG : ℝ := 23

/-- The pitch lower clamp computed inside the mousemove handler
(main.js line 1635): degrees to radians. -/
def minPitch : ℝ := CAMERA_PITCH_RANGE_DEG.min * Real.pi / 180

/-- The pitch upper clamp computed inside the mousemove handler
(main.js line 1636). -/
def maxPitch : ℝ := CAMERA_PITCH_RANGE_DEG.max * Real.pi / 180

/-- The module state read and written by the pointer-lock handlers. -/
structure MouseLookState where
  isPointerLocked : Bool
  cameraYaw : ℝ
  cameraPitch : ℝ
  isPaused : Bool
  skipNextMouseDelta : Bool

/-- Initial mouse-look state (main.js lines 1348-1353, 1363): yaw 0, pitch
initialized from DEFAULT_CAMERA_PITCH_DEG, no pointer lock, no pending skip. -/
def initialMouseLookState : MouseLookState :=
  ⟨false, 0, DEFAULT_CAMERA_PITCH_DEG * Real.pi / 180, false, false⟩

/-- onPointerLockChange (main.js lines 1592-1606): when the canvas acquires
pointer capture, unpause and arm the skip-next-delta flag; on release only the
lock flag changes (the DOM styling is out of scope). -/
def onPointerLockChange (lockedNow : Bool) (s : MouseLookState) : MouseLookState :=
  if lockedNow
  then { s with isPointerLocked := true, isPaused := false, skipNextMouseDelta := true }
  else { s with isPointerLocked := false }

/-- The mousemove handler (main.js lines 1623-1638): ignore when not
pointer-locked; consume the skip-next flag without applying; otherwise clamp
each delta to plus and minus maxDelta = 30, apply with POINTER_SENSITIVITY, and
clamp pitch into [minPitch, maxPitch]. The JavaScript `e.movementX || 0`
coalesces only falsy values (undefined, NaN, 0) to 0, which on finite reals is
the identity. -/
def onMouseMove (movementX movementY : ℝ) (s : MouseLookState) : MouseLookState :=
  if s.isPointerLocked = false then s
  else if s.skipNextMouseDelta = true then { s with skipNextMouseDelta := false }
  else
    { s with
      cameraYaw := s.cameraYaw - max (-30) (min 30 movementX) * POINTER_SENSITIVITY,
      cameraPitch := max minPitch (min maxPitch
        (s.cameraPitch - max (-30) (min 30 movementY) * POINTER_SENSITIVITY)) }

/-- A finite stream of mousemove events folded over the handler. -/
def runMouseMoves (evs : List (ℝ × ℝ)) (s : MouseLookState) : MouseLookState :=
  evs.foldl (fun acc e => onMouseMove e.1 e.2 acc) s

end

theorem minPitch_le_maxPitch : minPitch ≤ maxPitch := by
  rw [minPitch, maxPitch]
  have hpi := Real.pi_pos
  simp only [CAMERA_PITCH_RANGE_DEG]
  nlinarith

theorem onMouseMove_pitch_bounds (dx dy : ℝ) (s : MouseLookState)
    (h1 : minPitch ≤ s.cameraPitch) (h2 : s.cameraPitch ≤ maxPitch) :
    minPitch ≤ (onMouseMove dx dy s).cameraPitch ∧
      (onMouseMove dx dy s).cameraPitch ≤ maxPitch := by
  rw [onMouseMove]
  split
  · exact ⟨h1, h2⟩
  · split
    · exact ⟨h1, h2⟩
    · exact ⟨le_max_left _ _, max_le minPitch_le_maxPitch (min_le_left _ _)⟩

/-- C5: the mousemove handler clamps each per-event dx and dy to the maximum
per-event magnitude 30 before applying, and for every event sequence the pitch
stays inside [minPitch, maxPitch]: arbitrarily many large-negative-dy events
never drive pitch below minPitch and arbitrarily many large-positive-dy events
never drive it above maxPitch. -/
theorem pitch_stays_in_range (s : MouseLookState) (evs : List (ℝ × ℝ))
    (h1 : minPitch ≤ s.cameraPitch) (h2 : s.cameraPitch ≤ maxPitch) :
    minPitch ≤ (runMouseMoves evs s).cameraPitch ∧
      (runMouseMoves evs s).cameraPitch ≤ maxPitch := by
  induction evs generalizing s with
  | nil => exact ⟨h1, h2⟩
  | cons e evs ih =>
    have hb := onMouseMove_pitch_bounds e.1 e.2 s h1 h2
    exact ih (onMouseMove e.1 e.2 s) hb.1 hb.2

theorem pitch_stays_in_range_witness :
    (minPitch ≤ initialMouseLookState.cameraPitch ∧
        initialMouseLookState.cameraPitch ≤ maxPitch) ∧
      (minPitch ≤ (runMouseMoves [(100, -1000)] initialMouseLookState).cameraPitch ∧
        (runMouseMoves [(100, -1000)] initialMouseLookState).cameraPitch ≤ maxPitch) := by
  have hpi := Real.pi_pos
  have h1 : minPitch ≤ initialMouseLookState.cameraPitch := by
    simp only [minPitch, initialMouseLookState, CAMERA_PITCH_RANGE_DEG,
      DEFAULT_CAMERA_PITCH_DEG]
    nlinarith
  have h2 : initialMouseLookState.cameraPitch ≤ maxPitch := by
    simp only [maxPitch, initialMouseLookState, CAMERA_PITCH_RANGE_DEG,
      DEFAULT_CAMERA_PITCH_DEG]
    nlinarith
  exact ⟨⟨h1, h2⟩, pitch_stays_in_range initialMouseLookState [(100, -1000)] h1 h2⟩

/-- C6: after acquiring pointer capture sets the skip-next flag, the next
onPointerDelta call with dx = dy = 100 leaves yaw and pitch unchanged and
clears the flag; the second call applies normally: the clamped delta 30 times
the sensitivity, with the usual pitch clamp. -/
theorem skip_next_pointer_delta (s : MouseLookState) :
    ((onMouseMove 100 100 (onPointerLockChange true s)).cameraYaw = s.cameraYaw ∧
     (onMouseMove 100 100 (onPointerLockChange true s)).cameraPitch = s.cameraPitch ∧
     (onMouseMove 100 100 (onPointerLockChange true s)).skipNextMouseDelta = false) ∧
    ((onMouseMove 100 100 (onMouseMove 100 100 (onPointerLockChange true s))).cameraYaw =
        s.cameraYaw - 30 * POINTER_SENSITIVITY ∧
     (onMouseMove 100 100 (onMouseMove 100 100 (onPointerLockChange true s))).cameraPitch =
        max minPitch (min maxPitch (s.cameraPitch - 30 * POINTER_SENSITIVITY))) := by
  have hclamp : max (-30 : ℝ) (min 30 100) = 30 := by norm_num
  simp [onPointerLockChange, onMouseMove, hclamp]

/-! ## Follow-camera pose (updateCharacterMovement, main.js lines 2928-2954) -/

noncomputable section

/-- The desired third-person camera position (main.js lines 2928-2946):
spherical offset from yaw and pitch behind the character, with the vertical
offset floored at MIN_CAMERA_ABOVE_CHARACTER. -/
def desiredCameraPos (characterPos : ℝ × ℝ × ℝ) (baseYaw basePitch : ℝ) :
    ℝ × ℝ × ℝ :=
  (characterPos.1 + Real.sin baseYaw * -cameraFollowDistance * Real.cos basePitch,
   characterPos.2.1 +
     (if cameraFollowHeight + cameraFollowDistance * Real.sin basePitch <
          MIN_CAMERA_ABOVE_CHARACTER
      then MIN_CAMERA_ABOVE_CHARACTER
      else cameraFollowHeight + cameraFollowDistance * Real.sin basePitch),
   characterPos.2.2 + Real.cos baseYaw * -cameraFollowDistance * Real.cos basePitch)

/-- The desired look-at target (main.js lines 2951-2953):
character position plus (0, max(1.0, cameraFollowHeight * 0.4), 0). -/
def desiredTargetPos (characterPos : ℝ × ℝ × ℝ) : ℝ × ℝ × ℝ :=
  (characterPos.1, characterPos.2.1 + max 1.0 (cameraFollowHeight * 0.4),
   characterPos.2.2)

/-- baseAlpha (main.js line 2948): snappier while pointer capture is active. -/
def baseAlphaOf (isPointerLocked : Bool) : ℝ :=
  if isPointerLocked then 0.22 else 0.16

/-- The frame-rate-independent interpolation factor (main.js line 2949):
`alpha = 1 - Math.pow(1 - baseAlpha, Math.max(0.0001, delta) * 60)`. -/
def smoothingAlpha (isPointerLocked : Bool) (delta : ℝ) : ℝ :=
  1 - (1 - baseAlphaOf isPointerLocked) ^ (max 0.0001 delta * 60)

/-- One component of `THREE.Vector3.lerp`: `x += (v.x - x) * alpha`. -/
def lerp (a b t : ℝ) : ℝ := a + (b - a) * t

/-- Componentwise linear interpolation of a vector. -/
def lerp3 (a b : ℝ × ℝ × ℝ) (t : ℝ) : ℝ × ℝ × ℝ :=
  (lerp a.1 b.1 t, lerp a.2.1 b.2.1 t, lerp a.2.2 b.2.2 t)

/-- The camera pose advanced by the frame: current position and look-at target. -/
structure CameraPose where
  position : ℝ × ℝ × ℝ
  target : ℝ × ℝ × ℝ

/-- The camera-follow portion of updateCharacterMovement (main.js lines
2942-2954): lerp the camera position and the orbit target toward the desired
pose by the smoothing alpha. -/
def updateCameraFollow (characterPos : ℝ × ℝ × ℝ) (yaw pitch : ℝ)
    (isPointerLocked : Bool) (delta : ℝ) (cam : CameraPose) : CameraPose :=
  { position := lerp3 cam.position (desiredCameraPos characterPos yaw pitch)
      (smoothingAlpha isPointerLocked delta),
    target := lerp3 cam.target (desiredTargetPos characterPos)
      (smoothingAlpha isPointerLocked delta) }

/-- Iterated frames with constant avatar position, orbit angles and delta. -/
def updateCameraFollowIter (characterPos : ℝ × ℝ × ℝ) (yaw pitch : ℝ)
    (isPointerLocked : Bool) (delta : ℝ) (cam : CameraPose) : ℕ → CameraPose
  | 0 => cam
  | n + 1 => updateCameraFollow characterPos yaw pitch isPointerLocked delta
      (updateCameraFollowIter characterPos yaw pitch isPointerLocked delta cam n)

end

/-- C7: for every avatar position and yaw, and every pitch within the clamp
range, the desired camera position of the per-frame step is the avatar position
plus the spherical offset with the vertical component floored at
MIN_CAMERA_ABOVE_CHARACTER, and the desired look-at target is the avatar
position plus (0, max(1.0, followHeight * 0.4), 0). -/
theorem desired_pose_formula (p : ℝ × ℝ × ℝ) (yaw pitch : ℝ)
    (_h1 : minPitch ≤ pitch) (_h2 : pitch ≤ maxPitch) :
    desiredCameraPos p yaw pitch =
      (p.1 + Real.sin yaw * -cameraFollowDistance * Real.cos pitch,
       p.2.1 + max MIN_CAMERA_ABOVE_CHARACTER
         (cameraFollowHeight + cameraFollowDistance * Real.sin pitch),
       p.2.2 + Real.cos yaw * -cameraFollowDistance * Real.cos pitch) ∧
    desiredTargetPos p = (p.1, p.2.1 + max 1.0 (cameraFollowHeight * 0.4), p.2.2) := by
  refine ⟨?_, rfl⟩
  rw [desiredCameraPos]
  rcases lt_or_le (cameraFollowHeight + cameraFollowDistance * Real.sin pitch)
      MIN_CAMERA_ABOVE_CHARACTER with h | h
  · rw [if_pos h, max_eq_left h.le]
  · rw [if_neg (not_lt.mpr h), max_eq_right h]

theorem desired_pose_formula_witness :
    (minPitch ≤ (0 : ℝ) ∧ (0 : ℝ) ≤ maxPitch) ∧
      (desiredCameraPos (1, 2, 3) 0 0 =
        ((1 : ℝ) + Real.sin 0 * -cameraFollowDistance * Real.cos 0,
         (2 : ℝ) + max MIN_CAMERA_ABOVE_CHARACTER
           (cameraFollowHeight + cameraFollowDistance * Real.sin 0),
         (3 : ℝ) + Real.cos 0 * -cameraFollowDistance * Real.cos 0) ∧
       desiredTargetPos (1, 2, 3) =
        ((1 : ℝ), (2 : ℝ) + max 1.0 (cameraFollowHeight * 0.4), (3 : ℝ))) := by
  have hpi := Real.pi_pos
  have h1 : minPitch ≤ (0 : ℝ) := by
    simp only [minPitch, CAMERA_PITCH_RANGE_DEG]
    nlinarith
  have h2 : (0 : ℝ) ≤ maxPitch := by
    simp only [maxPitch, CAMERA_PITCH_RANGE_DEG]
    nlinarith
  exact ⟨⟨h1, h2⟩, desired_pose_formula (1, 2, 3) 0 0 h1 h2⟩

theorem smoothingAlpha_pos (b : Bool) (d : ℝ) : 0 < smoothingAlpha b d := by
  rw [smoothingAlpha]
  have hbase0 : (0 : ℝ) ≤ 1 - baseAlphaOf b := by cases b <;> norm_num [baseAlphaOf]
  have hbase1 : 1 - baseAlphaOf b < 1 := by cases b <;> norm_num [baseAlphaOf]
  have hexp : 0 < max 0.0001 d * 60 := by
    have h := le_max_left (0.0001 : ℝ) d
    nlinarith
  have := Real.rpow_lt_one hbase0 hbase1 hexp
  linarith

theorem smoothingAlpha_lt_one (b : Bool) (d : ℝ) : smoothingAlpha b d < 1 := by
  rw [smoothingAlpha]
  have hbase : (0 : ℝ) < 1 - baseAlphaOf b := by cases b <;> norm_num [baseAlphaOf]
  have := Real.rpow_pos_of_pos hbase (max 0.0001 d * 60)
  linarith

theorem lerp_sub (a b t : ℝ) : b - lerp a b t = (1 - t) * (b - a) := by
  rw [lerp]
  ring

theorem lerp_between (a b t : ℝ) (h0 : 0 ≤ t) (h1 : t ≤ 1) :
    min a b ≤ lerp a b t ∧ lerp a b t ≤ max a b := by
  rcases le_total a b with h | h
  · rw [min_eq_left h, max_eq_right h, lerp]
    constructor <;> nlinarith
  · rw [min_eq_right h, max_eq_left h, lerp]
    constructor <;> nlinarith

/-- C8: with alpha = 1 - (1 - baseAlpha)^(deltaTime * 60) the smoothing factor
always lies strictly between 0 and 1; each step shrinks the per-axis distance
between the camera position and the desired position by the factor (1 - alpha)
exactly, the new position never overshoots (it stays between the old position
and the desired position on every axis), and after n repeated steps with a
constant avatar position and fixed deltaTime the per-axis distance is
(1 - alpha)^n times the initial distance: geometric convergence. -/
theorem camera_smoothing_geometric (characterPos : ℝ × ℝ × ℝ) (yaw pitch : ℝ)
    (b : Bool) (delta : ℝ) (cam : CameraPose) :
    0 < smoothingAlpha b delta ∧ smoothingAlpha b delta < 1 ∧
    ((desiredCameraPos characterPos yaw pitch).1 -
        (updateCameraFollow characterPos yaw pitch b delta cam).position.1 =
      (1 - smoothingAlpha b delta) *
        ((desiredCameraPos characterPos yaw pitch).1 - cam.position.1) ∧
     (desiredCameraPos characterPos yaw pitch).2.1 -
        (updateCameraFollow characterPos yaw pitch b delta cam).position.2.1 =
      (1 - smoothingAlpha b delta) *
        ((desiredCameraPos characterPos yaw pitch).2.1 - cam.position.2.1) ∧
     (desiredCameraPos characterPos yaw pitch).2.2 -
        (updateCameraFollow characterPos yaw pitch b delta cam).position.2.2 =
      (1 - smoothingAlpha b delta) *
        ((desiredCameraPos characterPos yaw pitch).2.2 - cam.position.2.2)) ∧
    (min cam.position.1 (desiredCameraPos characterPos yaw pitch).1 ≤
        (updateCameraFollow characterPos yaw pitch b delta cam).position.1 ∧
     (updateCameraFollow characterPos yaw pitch b delta cam).position.1 ≤
        max cam.position.1 (desiredCameraPos characterPos yaw pitch).1 ∧
     min cam.position.2.1 (desiredCameraPos characterPos yaw pitch).2.1 ≤
        (updateCameraFollow characterPos yaw pitch b delta cam).position.2.1 ∧
     (updateCameraFollow characterPos yaw pitch b delta cam).position.2.1 ≤
        max cam.position.2.1 (desiredCameraPos characterPos yaw pitch).2.1 ∧
     min cam.position.2.2 (desiredCameraPos characterPos yaw pitch).2.2 ≤
        (updateCameraFollow characterPos yaw pitch b delta cam).position.2.2 ∧
     (updateCameraFollow characterPos yaw pitch b delta cam).position.2.2 ≤
        max cam.position.2.2 (desiredCameraPos characterPos yaw pitch).2.2) ∧
    ∀ n : ℕ,
      (desiredCameraPos characterPos yaw pitch).1 -
          (updateCameraFollowIter characterPos yaw pitch b delta cam n).position.1 =
        (1 - smoothingAlpha b delta) ^ n *
          ((desiredCameraPos characterPos yaw pitch).1 - cam.position.1) ∧
      (desiredCameraPos characterPos yaw pitch).2.1 -
          (updateCameraFollowIter characterPos yaw pitch b delta cam n).position.2.1 =
        (1 - smoothingAlpha b delta) ^ n *
          ((desiredCameraPos characterPos yaw pitch).2.1 - cam.position.2.1) ∧
      (desiredCameraPos characterPos yaw pitch).2.2 -
          (updateCameraFollowIter characterPos yaw pitch b delta cam n).position.2.2 =
        (1 - smoothingAlpha b delta) ^ n *
          ((desiredCameraPos characterPos yaw pitch).2.2 - cam.position.2.2) := by
  have ha0 := smoothingAlpha_pos b delta
  have ha1 := smoothingAlpha_lt_one b delta
  refine ⟨ha0, ha1, ⟨lerp_sub _ _ _, lerp_sub _ _ _, lerp_sub _ _ _⟩, ?_, ?_⟩
  · have hb1 := lerp_between cam.position.1 (desiredCameraPos characterPos yaw pitch).1
      (smoothingAlpha b delta) ha0.le ha1.le
    have hb2 := lerp_between cam.position.2.1 (desiredCameraPos characterPos yaw pitch).2.1
      (smoothingAlpha b delta) ha0.le ha1.le
    have hb3 := lerp_between cam.position.2.2 (desiredCameraPos characterPos yaw pitch).2.2
      (smoothingAlpha b delta) ha0.le ha1.le
    exact ⟨hb1.1, hb1.2, hb2.1, hb2.2, hb3.1, hb3.2⟩
  · intro n
    induction n with
    | zero => refine ⟨?_, ?_, ?_⟩ <;> simp [updateCameraFollowIter]
    | succ n ih =>
      refine ⟨?_, ?_, ?_⟩
      · have hs := lerp_sub
          (updateCameraFollowIter characterPos yaw pitch b delta cam n).position.1
          (desiredCameraPos characterPos yaw pitch).1 (smoothingAlpha b delta)
        calc (desiredCameraPos characterPos yaw pitch).1 -
              (updateCameraFollowIter characterPos yaw pitch b delta cam (n + 1)).position.1
            = (1 - smoothingAlpha b delta) *
              ((desiredCameraPos characterPos yaw pitch).1 -
                (updateCameraFollowIter characterPos yaw pitch b delta cam n).position.1) := hs
          _ = (1 - smoothingAlpha b delta) ^ (n + 1) *
              ((desiredCameraPos characterPos yaw pitch).1 - cam.position.1) := by
              rw [ih.1]
              ring
      · have hs := lerp_sub
          (updateCameraFollowIter characterPos yaw pitch b delta cam n).position.2.1
          (desiredCameraPos characterPos yaw pitch).2.1 (smoothingAlpha b delta)
        calc (desiredCameraPos characterPos yaw pitch).2.1 -
              (updateCameraFollowIter characterPos yaw pitch b delta cam (n + 1)).position.2.1
            = (1 - smoothingAlpha b delta) *
              ((desiredCameraPos characterPos yaw pitch).2.1 -
                (updateCameraFollowIter characterPos yaw pitch b delta cam n).position.2.1) := hs
          _ = (1 - smoothingAlpha b delta) ^ (n + 1) *
              ((desiredCameraPos characterPos yaw pitch).2.1 - cam.position.2.1) := by
              rw [ih.2.1]
              ring
      · have hs := lerp_sub
          (updateCameraFollowIter characterPos yaw pitch b delta cam n).position.2.2
          (desiredCameraPos characterPos yaw pitch).2.2 (smoothingAlpha b delta)
        calc (desiredCameraPos characterPos yaw pitch).2.2 -
              (updateCameraFollowIter characterPos yaw pitch b delta cam (n + 1)).position.2.2
            = (1 - smoothingAlpha b delta) *
              ((desiredCameraPos characterPos yaw pitch).2.2 -
                (updateCameraFollowIter characterPos yaw pitch b delta cam n).position.2.2) := hs
          _ = (1 - smoothingAlpha b delta) ^ (n + 1) *
              ((desiredCameraPos characterPos yaw pitch).2.2 - cam.position.2.2) := by
              rw [ih.2.2]
              ring

/-! ## angleDelta and smoothAngleTowards (main.js lines 1652-1663) -/

noncomputable section

/-- The first normalization loop of angleDelta (main.js line 1655):
`while (delta > Math.PI) delta -= 2 * Math.PI`. -/
def angleDeltaLoopSub (delta : ℝ) : ℝ :=
  if h : Real.pi < delta then angleDeltaLoopSub (delta - 2 * Real.pi) else delta
termination_by (⌈(delta - Real.pi) / (2 * Real.pi)⌉).toNat
decreasing_by
  have hpi : (0 : ℝ) < Real.pi := Real.pi_pos
  have key : (delta - 2 * Real.pi - Real.pi) / (2 * Real.pi)
      = (delta - Real.pi) / (2 * Real.pi) - 1 := by
    field_simp
    ring
  rw [key, Int.ceil_sub_one]
  have hpos : 0 < ⌈(delta - Real.pi) / (2 * Real.pi)⌉ :=
    Int.ceil_pos.mpr (div_pos (by linarith) (by linarith))
  omega

/-- The second normalization loop of angleDelta (main.js line 1656):
`while (delta < -Math.PI) delta += 2 * Math.PI`. -/
def angleDeltaLoopAdd (delta : ℝ) : ℝ :=
  if h : delta < -Real.pi then angleDeltaLoopAdd (delta + 2 * Real.pi) else delta
termination_by (⌈(-Real.pi - delta) / (2 * Real.pi)⌉).toNat
decreasing_by
  have hpi : (0 : ℝ) < Real.pi := Real.pi_pos
  have key : (-Real.pi - (delta + 2 * Real.pi)) / (2 * Real.pi)
      = (-Real.pi - delta) / (2 * Real.pi) - 1 := by
    field_simp
    ring
  rw [key, Int.ceil_sub_one]
  have hpos : 0 < ⌈(-Real.pi - delta) / (2 * Real.pi)⌉ :=
    Int.ceil_pos.mpr (div_pos (by linarith) (by linarith))
  omega

/-- angleDelta (main.js lines 1652-1658): shortest angular difference. -/
def angleDelta (current target : ℝ) : ℝ :=
  angleDeltaLoopAdd (angleDeltaLoopSub (target - current))

/-- smoothAngleTowards (main.js lines 1660-1663). -/
def smoothAngleTowards (current target alpha : ℝ) : ℝ :=
  current + angleDelta current target * min 1 (max 0 alpha)

end

theorem angleDeltaLoopSub_le (d : ℝ) : angleDeltaLoopSub d ≤ Real.pi := by
  induction d using angleDeltaLoopSub.induct with
  | case1 d h ih =>
    rw [angleDeltaLoopSub, dif_pos h]
    exact ih
  | case2 d h =>
    rw [angleDeltaLoopSub, dif_neg h]
    exact le_of_not_lt h

theorem angleDeltaLoopAdd_ge (d : ℝ) : -Real.pi ≤ angleDeltaLoopAdd d := by
  induction d using angleDeltaLoopAdd.induct with
  | case1 d h ih =>
    rw [angleDeltaLoopAdd, dif_pos h]
    exact ih
  | case2 d h =>
    rw [angleDeltaLoopAdd, dif_neg h]
    exact le_of_not_lt h

theorem angleDeltaLoopAdd_le (d : ℝ) : d ≤ Real.pi → angleDeltaLoopAdd d ≤ Real.pi := by
  induction d using angleDeltaLoopAdd.induct with
  | case1 d h ih =>
    intro _
    rw [angleDeltaLoopAdd, dif_pos h]
    exact ih (by nlinarith [Real.pi_pos])
  | case2 d h =>
    intro hd
    rw [angleDeltaLoopAdd, dif_neg h]
    exact hd

theorem angleDeltaLoopSub_congr (d : ℝ) :
    ∃ k : ℤ, angleDeltaLoopSub d = d - 2 * Real.pi * k := by
  induction d using angleDeltaLoopSub.induct with
  | case1 d h ih =>
    obtain ⟨k, hk⟩ := ih
    refine ⟨k + 1, ?_⟩
    rw [angleDeltaLoopSub, dif_pos h, hk]
    push_cast
    ring
  | case2 d h =>
    refine ⟨0, ?_⟩
    rw [angleDeltaLoopSub, dif_neg h]
    push_cast
    ring

theorem angleDeltaLoopAdd_congr (d : ℝ) :
    ∃ k : ℤ, angleDeltaLoopAdd d = d + 2 * Real.pi * k := by
  induction d using angleDeltaLoopAdd.induct with
  | case1 d h ih =>
    obtain ⟨k, hk⟩ := ih
    refine ⟨k + 1, ?_⟩
    rw [angleDeltaLoopAdd, dif_pos h, hk]
    push_cast
    ring
  | case2 d h =>
    refine ⟨0, ?_⟩
    rw [angleDeltaLoopAdd, dif_neg h]
    push_cast
    ring

/-! ## angleDelta over IEEE special values: a fuel semantics for the loops.
A `none` result means the while loop did not finish within the given fuel; a
result independent of any sufficiently large fuel is the value the JavaScript
loop actually returns. -/

/-- A JavaScript number for the angle helpers: NaN, a signed infinity, or a
finite real. -/
inductive JsR where
  | nan : JsR
  | inf : Bool → JsR
  | fin : ℝ → JsR

noncomputable section

/-- The strict greater-than of JavaScript: any comparison with NaN is false. -/
def jsGtR : JsR → JsR → Bool
  | .nan, _ => false
  | _, .nan => false
  | .inf true, .inf true => false
  | .inf true, _ => true
  | .inf false, _ => false
  | .fin _, .inf true => false
  | .fin _, .inf false => true
  | .fin a, .fin b => decide (b < a)

/-- The strict less-than of JavaScript. -/
def jsLtR (a b : JsR) : Bool := jsGtR b a

/-- JavaScript subtraction on the special values. -/
def jsSubR : JsR → JsR → JsR
  | .nan, _ => .nan
  | _, .nan => .nan
  | .inf s, .inf t => if s = t then .nan else .inf s
  | .inf s, .fin _ => .inf s
  | .fin _, .inf t => .inf (!t)
  | .fin a, .fin b => .fin (a - b)

/-- JavaScript addition on the special values. -/
def jsAddR : JsR → JsR → JsR
  | .nan, _ => .nan
  | _, .nan => .nan
  | .inf s, .inf t => if s = t then .inf s else .nan
  | .inf s, .fin _ => .inf s
  | .fin _, .inf t => .inf t
  | .fin a, .fin b => .fin (a + b)

/-- Fuel semantics of the first angleDelta loop (main.js line 1655) over the
special values. -/
def jsAngleLoopSub : ℕ → JsR → Option JsR
  | 0, d => if jsGtR d (.fin Real.pi) = true then none else some d
  | f + 1, d =>
    if jsGtR d (.fin Real.pi) = true
    then jsAngleLoopSub f (jsSubR d (.fin (2 * Real.pi)))
    else some d

/-- Fuel semantics of the second angleDelta loop (main.js line 1656). -/
def jsAngleLoopAdd : ℕ → JsR → Option JsR
  | 0, d => if jsLtR d (.fin (-Real.pi)) = true then none else some d
  | f + 1, d =>
    if jsLtR d (.fin (-Real.pi)) = true
    then jsAngleLoopAdd f (jsAddR d (.fin (2 * Real.pi)))
    else some d

/-- Fuel semantics of angleDelta (main.js lines 1652-1658) over the special
values. -/
def jsAngleDelta (fuel : ℕ) (current target : JsR) : Option JsR :=
  match jsAngleLoopSub fuel (jsSubR target current) with
  | none => none
  | some d => jsAngleLoopAdd fuel d

end

theorem jsAngleLoopSub_posInf (fuel : ℕ) :
    jsAngleLoopSub fuel (JsR.inf true) = none := by
  induction fuel with
  | zero => rfl
  | succ f ih => exact ih

theorem jsAngleLoopSub_nan (fuel : ℕ) : jsAngleLoopSub fuel JsR.nan = some JsR.nan := by
  cases fuel <;> rfl

theorem jsAngleLoopAdd_nan (fuel : ℕ) : jsAngleLoopAdd fuel JsR.nan = some JsR.nan := by
  cases fuel <;> rfl

/-- C9 (amended): for every pair of finite angles, angleDelta terminates (it is
a total function on the reals) and returns a value in [-pi, pi] congruent to
(target - current) modulo 2 pi. Finiteness of both inputs remains necessary for
this contract, but the loops spin forever only when the angle difference is an
infinity: on a NaN difference (for instance a NaN input) both loop guards are
false, so angleDelta terminates immediately with NaN for any fuel, including
zero. -/
theorem angleDelta_normalizes :
    (∀ current target : ℝ,
      -Real.pi ≤ angleDelta current target ∧ angleDelta current target ≤ Real.pi ∧
        ∃ k : ℤ, angleDelta current target = (target - current) + 2 * Real.pi * k) ∧
    (∀ fuel : ℕ, jsAngleDelta fuel (JsR.fin 0) (JsR.inf true) = none) ∧
    (∀ (fuel : ℕ) (t : ℝ), jsAngleDelta fuel JsR.nan (JsR.fin t) = some JsR.nan) := by
  refine ⟨?_, ?_, ?_⟩
  · intro current target
    refine ⟨angleDeltaLoopAdd_ge _, angleDeltaLoopAdd_le _ (angleDeltaLoopSub_le _), ?_⟩
    obtain ⟨k1, hk1⟩ := angleDeltaLoopSub_congr (target - current)
    obtain ⟨k2, hk2⟩ := angleDeltaLoopAdd_congr (angleDeltaLoopSub (target - current))
    refine ⟨k2 - k1, ?_⟩
    rw [angleDelta, hk2, hk1]
    push_cast
    ring
  · intro fuel
    rw [jsAngleDelta]
    have hsub : jsSubR (JsR.inf true) (JsR.fin 0) = JsR.inf true := rfl
    rw [hsub, jsAngleLoopSub_posInf]
  · intro fuel t
    rw [jsAngleDelta]
    have hsub : jsSubR (JsR.fin t) JsR.nan = JsR.nan := rfl
    rw [hsub, jsAngleLoopSub_nan]
    exact jsAngleLoopAdd_nan fuel

/-- C9 counterexample to the stated rider: the normalization loops DO terminate
on the non-finite argument NaN. With a NaN current angle the loop guards are
false at once, so even with zero fuel both loops finish and angleDelta returns
NaN; only infinite angle differences make the loops spin. -/
theorem angleDelta_nan_terminating :
    jsAngleDelta 0 JsR.nan (JsR.fin 0) = some JsR.nan := rfl

/-! ## Streaming over IEEE special values (claim C4).
The rational streaming model above covers finite positions. To settle how a
NaN or infinite avatar position flows through updateCityStreaming, the same
code is embedded once more over JavaScript numbers with NaN and infinities.
Chunk indices, loop counters and keys are integer-valued JavaScript numbers. -/

/-- A JavaScript number used as a position component. -/
inductive JsNum where
  | nan : JsNum
  | inf : Bool → JsNum
  | fin : ℚ → JsNum
deriving DecidableEq, Repr

/-- An integer-valued JavaScript number (chunk index or loop counter): what
Math.floor returns. -/
inductive JsInt where
  | nan : JsInt
  | inf : Bool → JsInt
  | fin : ℤ → JsInt
deriving DecidableEq, Repr

/-- worldToChunk on one component (main.js lines 2962-2963):
`Math.floor(x / CHUNK_SIZE)`. In IEEE arithmetic NaN / 32 = NaN and
(+-Infinity) / 32 = +-Infinity, and Math.floor fixes NaN and the infinities. -/
def jsChunkIndex : JsNum → JsInt
  | .nan => .nan
  | .inf s => .inf s
  | .fin q => .fin ⌊q / CHUNK_SIZE⌋

/-- JavaScript strict equality `===` on numbers: false whenever NaN is involved
(NaN === NaN is false). -/
def jsiStrictEq : JsInt → JsInt → Bool
  | .nan, _ => false
  | _, .nan => false
  | .inf s, .inf t => decide (s = t)
  | .fin a, .fin b => decide (a = b)
  | _, _ => false

/-- JavaScript `<=`: false whenever NaN is involved. -/
def jsiLe : JsInt → JsInt → Bool
  | .nan, _ => false
  | _, .nan => false
  | .inf false, _ => true
  | _, .inf true => true
  | .inf true, _ => false
  | _, .inf false => false
  | .fin a, .fin b => decide (a ≤ b)

/-- JavaScript addition on integer-valued numbers and specials. -/
def jsiAdd : JsInt → JsInt → JsInt
  | .nan, _ => .nan
  | _, .nan => .nan
  | .inf s, .inf t => if s = t then .inf s else .nan
  | .inf s, .fin _ => .inf s
  | .fin _, .inf t => .inf t
  | .fin a, .fin b => .fin (a + b)

/-- JavaScript subtraction on integer-valued numbers and specials. -/
def jsiSub : JsInt → JsInt → JsInt
  | .nan, _ => .nan
  | _, .nan => .nan
  | .inf s, .inf t => if s = t then .nan else .inf s
  | .inf s, .fin _ => .inf s
  | .fin _, .inf t => .inf (!t)
  | .fin a, .fin b => .fin (a - b)

/-- Fuel semantics of `for (let v = lo; v <= hi; v++)` over JavaScript numbers:
the list of loop values, or `none` when the loop does not finish within the
fuel (with a NaN bound the guard is false at once; with lo finite and hi
+Infinity the loop never ends). -/
def jsiForValues : ℕ → JsInt → JsInt → Option (List JsInt)
  | 0, x, hi => if jsiLe x hi = true then none else some []
  | f + 1, x, hi =>
    if jsiLe x hi = true
    then (jsiForValues f (jsiAdd x (.fin 1)) hi).map (fun l => x :: l)
    else some []

/-- The streamer module state over JavaScript numbers; keys are modelled
structurally, matching the string keys `x + "," + z` (NaN stringifies to the
same "NaN" key each time). -/
structure JsStreamState where
  loadedChunks : List ((JsInt × JsInt) × ℕ)
  lastChunkX : Option JsInt
  lastChunkZ : Option JsInt
  nextId : ℕ
deriving DecidableEq, Repr

/-- Initial module state over JavaScript numbers. -/
def jsInitialStreamState : JsStreamState := ⟨[], none, none, 0⟩

/-- Keys of the table. -/
def jsChunkKeys (s : JsStreamState) : List (JsInt × JsInt) :=
  s.loadedChunks.map Prod.fst

/-- Creation-loop body over JavaScript numbers (main.js lines 2982-2986). -/
def jsLoadStep (acc : JsStreamState) (k : JsInt × JsInt) : JsStreamState :=
  if k ∈ jsChunkKeys acc then acc
  else { acc with loadedChunks := acc.loadedChunks ++ [(k, acc.nextId)],
                  nextId := acc.nextId + 1 }

/-- The memo test `cx === lastChunkX` (main.js line 2975): `null` compares
unequal to every number, and NaN compares unequal to everything including
itself. -/
def jsMemoHit : Option JsInt → JsInt → Bool
  | none, _ => false
  | some v, c => jsiStrictEq c v

/-- updateCityStreaming (main.js lines 2968-3007) at a precomputed avatar
chunk, over JavaScript numbers with a loop fuel. -/
def jsReconcileAt (fuel : ℕ) (cx cz : JsInt) (s : JsStreamState) :
    Option JsStreamState :=
  if jsMemoHit s.lastChunkX cx = true ∧ jsMemoHit s.lastChunkZ cz = true ∧
      0 < s.loadedChunks.length
  then some s
  else
    match jsiForValues fuel (jsiSub cx (.fin CHUNK_RADIUS)) (jsiAdd cx (.fin CHUNK_RADIUS)),
          jsiForValues fuel (jsiSub cz (.fin CHUNK_RADIUS)) (jsiAdd cz (.fin CHUNK_RADIUS)) with
    | some xs, some zs =>
      let needed := xs.flatMap (fun x => zs.map (fun z => (x, z)))
      let s2 := needed.foldl jsLoadStep
        { s with lastChunkX := some cx, lastChunkZ := some cz }
      some { s2 with
        loadedChunks := s2.loadedChunks.filter (fun e => decide (e.1 ∈ needed)) }
    | _, _ => none

/-- updateCityStreaming over JavaScript numbers: compute the avatar chunk from
the (possibly absent) character position, then reconcile. -/
def jsUpdateCityStreaming (fuel : ℕ) (characterPos : Option (JsNum × JsNum))
    (s : JsStreamState) : Option JsStreamState :=
  jsReconcileAt fuel
    (jsChunkIndex (characterPos.getD (.fin 0, .fin 0)).1)
    (jsChunkIndex (characterPos.getD (.fin 0, .fin 0)).2) s

/-- The 3x3 table produced by a reconcile at the origin over JavaScript
numbers: nine chunks with ids 0..8, memo (0, 0), allocation counter 9. -/
def jsOriginState : JsStreamState :=
  ⟨[((.fin (-1), .fin (-1)), 0), ((.fin (-1), .fin 0), 1), ((.fin (-1), .fin 1), 2),
    ((.fin 0, .fin (-1)), 3), ((.fin 0, .fin 0), 4), ((.fin 0, .fin 1), 5),
    ((.fin 1, .fin (-1)), 6), ((.fin 1, .fin 0), 7), ((.fin 1, .fin 1), 8)],
   some (.fin 0), some (.fin 0), 9⟩

/-- The state left by a frame whose avatar x position is NaN, starting from
jsOriginState: the table has been emptied and NaN is stored in the chunk memo. -/
def jsNanPoisonedState : JsStreamState := ⟨[], some .nan, some (.fin 0), 9⟩

theorem jsChunkIndex_fin_zero : jsChunkIndex (JsNum.fin 0) = JsInt.fin 0 := by
  have h : (⌊(0 : ℚ) / CHUNK_SIZE⌋ : ℤ) = 0 := by norm_num [CHUNK_SIZE]
  show JsInt.fin ⌊(0 : ℚ) / CHUNK_SIZE⌋ = JsInt.fin 0
  rw [h]

/-- C4 counterexample: the avatar position is NOT clamped or rejected before
use. A single frame with a NaN x position, starting from the healthy
post-origin-reconcile state, reaches worldToChunk unfiltered: the needed loop
runs zero times, every loaded tile is evicted, and the non-finite value NaN is
stored into the Last-Known Avatar Tile memo - the persistent streamer state is
visibly corrupted by the bad frame rather than protected from it. -/
theorem nan_position_not_clamped :
    jsUpdateCityStreaming 10 (some (.nan, .fin 0)) jsOriginState =
      some jsNanPoisonedState := by
  show jsReconcileAt 10 (jsChunkIndex JsNum.nan) (jsChunkIndex (JsNum.fin 0))
      jsOriginState = some jsNanPoisonedState
  rw [jsChunkIndex_fin_zero]
  decide

/-- C4 (amended): non-positive deltaTime is clamped to 0.0001 before use in the
smoothing exponent, and per-event pointer deltas are clamped to magnitude 30,
so one bad frame moves the yaw by at most 30 times the sensitivity; the avatar
position, however, is not clamped or rejected: a NaN x component empties the
tile table and stores NaN into the Last-Known Avatar Tile for that frame, and
only a subsequent frame with a finite position rebuilds the table (with fresh
tiles, ids 9..17), after which the key set is again the needed 3x3 square. -/
theorem degenerate_input_handling :
    (∀ (b : Bool) (d : ℝ), d ≤ 0 → smoothingAlpha b d = smoothingAlpha b 0.0001) ∧
    (∀ (dx dy : ℝ) (s : MouseLookState),
      |(onMouseMove dx dy s).cameraYaw - s.cameraYaw| ≤ 30 * POINTER_SENSITIVITY) ∧
    jsUpdateCityStreaming 10 (some (.fin 0, .fin 0)) jsInitialStreamState =
      some jsOriginState ∧
    jsUpdateCityStreaming 10 (some (.nan, .fin 0)) jsOriginState =
      some jsNanPoisonedState ∧
    jsUpdateCityStreaming 10 (some (.fin 0, .fin 0)) jsNanPoisonedState =
      some ⟨[((.fin (-1), .fin (-1)), 9), ((.fin (-1), .fin 0), 10),
             ((.fin (-1), .fin 1), 11), ((.fin 0, .fin (-1)), 12),
             ((.fin 0, .fin 0), 13), ((.fin 0, .fin 1), 14),
             ((.fin 1, .fin (-1)), 15), ((.fin 1, .fin 0), 16),
             ((.fin 1, .fin 1), 17)],
            some (.fin 0), some (.fin 0), 18⟩ := by
  refine ⟨?_, ?_, ?_, ?_, ?_⟩
  · intro b d hd
    rw [smoothingAlpha, smoothingAlpha,
      max_eq_left (hd.trans (by norm_num)), max_self]
  · intro dx dy s
    rw [onMouseMove]
    split
    · simp only [sub_self, abs_zero]
      norm_num [POINTER_SENSITIVITY]
    · split
      · simp only [sub_self, abs_zero]
        norm_num [POINTER_SENSITIVITY]
      · show |s.cameraYaw - max (-30 : ℝ) (min 30 dx) * POINTER_SENSITIVITY -
            s.cameraYaw| ≤ 30 * POINTER_SENSITIVITY
        have hc : |max (-30 : ℝ) (min 30 dx)| ≤ 30 :=
          abs_le.mpr ⟨le_max_left _ _, max_le (by norm_num) (min_le_left _ _)⟩
        have hrw : s.cameraYaw - max (-30 : ℝ) (min 30 dx) * POINTER_SENSITIVITY -
            s.cameraYaw = -(max (-30 : ℝ) (min 30 dx) * POINTER_SENSITIVITY) := by
          ring
        rw [hrw, abs_neg, abs_mul,
          show |POINTER_SENSITIVITY| = POINTER_SENSITIVITY by
            norm_num [POINTER_SENSITIVITY]]
        exact mul_le_mul_of_nonneg_right hc (by norm_num [POINTER_SENSITIVITY])
  · show jsReconcileAt 10 (jsChunkIndex (JsNum.fin 0)) (jsChunkIndex (JsNum.fin 0))
        jsInitialStreamState = some jsOriginState
    rw [jsChunkIndex_fin_zero]
    decide
  · show jsReconcileAt 10 (jsChunkIndex JsNum.nan) (jsChunkIndex (JsNum.fin 0))
        jsOriginState = some jsNanPoisonedState
    rw [jsChunkIndex_fin_zero]
    decide
  · show jsReconcileAt 10 (jsChunkIndex (JsNum.fin 0)) (jsChunkIndex (JsNum.fin 0))
        jsNanPoisonedState = some _
    rw [jsChunkIndex_fin_zero]
    decide

theorem degenerate_input_handling_witness :
    smoothingAlpha false (-1) = smoothingAlpha false 0.0001 :=
  degenerate_input_handling.1 false (-1) (by norm_num)
